import Mathlib

/-!
Shallow embedding of `src/dataset.py` (malware/benign dataset partitioning
and batch collation) and proofs of the specification's claims about it.

Modelling conventions:
* A `Sample` is the numeric sequence obtained by deserializing one file
  (the spec's external serialization collaborator); a dataset directory is
  modelled by the (already sorted) list of the samples of its files.
* Python `float` fractions are modelled by `ℚ`; the sample labels 0.0 and
  1.0 by `(0 : ℚ)` and `(1 : ℚ)`.
* Python operations that can raise return `Option`/`Except`.
* The random-split primitive (sklearn's `train_test_split`) is an external
  collaborator explicitly out of scope for the spec, which black-boxes it
  as: given a sequence of indices and a held-out fraction, return two
  disjoint index subsets whose sizes approximate the fraction, optionally
  shuffled.  It is modelled with the held-out size `⌈n * fraction⌉` and an
  explicit permutation oracle `perm` standing for the draw the primitive
  makes from the ambient random state; theorems quantify over every oracle
  that really permutes its input.
-/

/-- The numeric sequence loaded from one sample file. -/
abbrev Sample := List ℕ

/-- `MalwareDataset(benign_dir, malware_dir)`: the two sorted file lists,
each file modelled by the sample it deserializes to. -/
structure MalwareDataset where
  benign : List Sample
  malware : List Sample
deriving DecidableEq, Repr

/-- `MalwareDataset.__len__`: `len(self.benign_files) + len(self.malware_files)`. -/
def MalwareDataset.len (d : MalwareDataset) : ℕ :=
  d.benign.length + d.malware.length

/-- Python list subscription `l[i]`: non-negative indices are offsets from
the front, negative indices are offsets from the back (`l[len(l) + i]`);
out-of-range subscription raises `IndexError`, modelled by `none`. -/
def pyIndex {α : Type} (l : List α) (i : ℤ) : Option α :=
  let j : ℤ := if i < 0 then i + l.length else i
  if 0 ≤ j then l.get? j.toNat else none

/-- `MalwareDataset.__getitem__`: try `benign_files[index]` with label 0.0;
on `IndexError` fall back to `malware_files[index - len(benign_files)]`
with label 1.0; a second `IndexError` propagates (`none`). -/
def MalwareDataset.getitem (d : MalwareDataset) (index : ℤ) : Option (Sample × ℚ) :=
  match pyIndex d.benign index with
  | some s => some (s, 0)
  | none =>
    match pyIndex d.malware (index - d.benign.length) with
    | some s => some (s, 1)
    | none => none

/-- One output row of `pad_sequence`: a sample shorter than `max_len` keeps
the `padding_value` prefill on its tail (`out_tensor[i, :length] = tensor`),
otherwise the row is overwritten with the first `max_len` elements
(`out_tensor[i, :max_len] = tensor[:max_len]`). -/
def padRow (maxLen : ℕ) (paddingValue : ℕ) (s : Sample) : Sample :=
  if maxLen > s.length then s ++ List.replicate (maxLen - s.length) paddingValue
  else s.take maxLen

/-- `pad_sequence(sequences, max_len, padding_value)`: on an empty batch the
access `sequences[0]` (or, with `max_len=None`, `max([])`) raises, modelled
by `none`; otherwise every sample becomes a row of width `max_len`. -/
def pad_sequence (sequences : List Sample) (maxLen : Option ℕ) (paddingValue : ℕ) :
    Option (List Sample) :=
  match sequences with
  | [] => none
  | s0 :: rest =>
    let ml : ℕ := match maxLen with
      | some m => m
      | none => ((s0 :: rest).map List.length).foldr max 0
    some ((s0 :: rest).map (padRow ml paddingValue))

/-- `collate_fn(batch)`: pad the samples to width 4096 with pad value 256
and collect the labels in batch order. -/
def collate_fn (batch : List (Sample × ℚ)) : Option (List Sample × List ℚ) :=
  match pad_sequence (batch.map Prod.fst) (some 4096) 256 with
  | some xs => some (xs, batch.map Prod.snd)
  | none => none

/-- Modelled from the spec: the external random-split primitive
(`sklearn.model_selection.train_test_split`), black-boxed by the spec as
returning two disjoint index subsets whose sizes approximate the requested
held-out fraction, optionally shuffled.  The held-out size is
`⌈n * testSize⌉`; with `shuffle` the primitive draws a permutation of the
input from the ambient random state (the oracle `perm`) and holds out its
first `⌈n * testSize⌉` elements, without `shuffle` it holds out the tail.
Returns `(kept, heldOut)`. -/
def train_test_split (idx : List ℕ) (testSize : ℚ) (shuffle : Bool)
    (perm : List ℕ → List ℕ) : List ℕ × List ℕ :=
  let k : ℕ := Nat.ceil ((idx.length : ℚ) * testSize)
  if shuffle then
    let l := perm idx
    (l.drop k, l.take k)
  else
    (idx.take (idx.length - k), idx.drop (idx.length - k))

/-- `train_val_test_split(idx, val_size, test_size, shuffle=True)`: hold out
the test subset first, then split the remainder into train and val.  The
two oracle arguments are the two successive draws from the ambient random
state. -/
def train_val_test_split (idx : List ℕ) (valSize testSize : ℚ) (shuffle : Bool)
    (p1 p2 : List ℕ → List ℕ) : List ℕ × List ℕ × List ℕ :=
  let s1 := train_test_split idx testSize shuffle p1
  let s2 := train_test_split s1.1 valSize shuffle p2
  (s2.1, s2.2, s1.2)

/-- `make_idx(dataset, val_size, test_size)`: split `range(num_benign)` and
`range(num_benign, num_benign + num_malware)` independently (shuffle
defaulted to `True`) and concatenate the parts. -/
def make_idx (d : MalwareDataset) (valSize testSize : ℚ)
    (p1 p2 p3 p4 : List ℕ → List ℕ) : List ℕ × List ℕ × List ℕ :=
  let numBenign := d.benign.length
  let numMalware := d.malware.length
  let benignIdx := List.range numBenign
  let malwareIdx := List.range' numBenign numMalware
  let b := train_val_test_split benignIdx valSize testSize true p1 p2
  let m := train_val_test_split malwareIdx valSize testSize true p3 p4
  (b.1 ++ m.1, b.2.1 ++ m.2.1, b.2.2 ++ m.2.2)

/-- `torch.utils.data.Subset(dataset, indices)`: a non-owning index view. -/
structure SubsetModel where
  base : MalwareDataset
  indices : List ℕ
deriving DecidableEq, Repr

/-- `DataLoader(dataset, batch_size, collate_fn, shuffle)` as produced by
`make_loader`: the batch source's structure (its underlying subset, batch
size and shuffle flag). -/
structure LoaderModel where
  dataset : SubsetModel
  batchSize : ℕ
  shuffle : Bool
deriving DecidableEq, Repr

/-- `make_loader(dataset, batch_size, shuffle=True)`. -/
def make_loader (ds : SubsetModel) (batchSize : ℕ) (shuffle : Bool := true) :
    LoaderModel :=
  ⟨ds, batchSize, shuffle⟩

/-- The hard-coded benign directory of the secondary test dataset in
`make_loaders`. -/
def testingBenignDir : String := "/home/kali/deep-malware-detection/raw/test/benign"

/-- The hard-coded malware directory of the secondary test dataset in
`make_loaders`. -/
def testingMalwareDir : String := "/home/kali/deep-malware-detection/raw/test/malware"

/-- `MalwareDataset(benign_dir, malware_dir)` read against a filesystem
`fsys` mapping a directory to the sorted samples of its files. -/
def mkMalwareDataset (fsys : String → List Sample) (benignDir malwareDir : String) :
    MalwareDataset :=
  ⟨fsys benignDir, fsys malwareDir⟩

/-- `make_loaders(benign_dir, malware_dir, batch_size, val_size, test_size)`:
checks `val_size + test_size >= 1` first (`ValueError`), then builds the
primary dataset and its split, the train and test loaders over the primary
dataset — and the val loader over a second `MalwareDataset` loaded from the
hard-coded `/home/kali/...` paths, reusing the primary dataset's `val_idx`.
`P n` is the n-th draw from the ambient random state. -/
def make_loaders (fsys : String → List Sample) (benignDir malwareDir : String)
    (batchSize : ℕ) (valSize testSize : ℚ) (P : ℕ → List ℕ → List ℕ) :
    Except String (LoaderModel × LoaderModel × LoaderModel) :=
  let nonTrainSize := valSize + testSize
  if nonTrainSize ≥ 1 then
    Except.error "ValueError: val_size + test_size >= 1. Please adjust the proportions and try again."
  else
    let dataset := mkMalwareDataset fsys benignDir malwareDir
    let idx := make_idx dataset valSize testSize (P 0) (P 1) (P 2) (P 3)
    let trainDataset : SubsetModel := ⟨dataset, idx.1⟩
    let testDataset : SubsetModel := ⟨dataset, idx.2.2⟩
    let trainLoader := make_loader trainDataset batchSize true
    let testLoader := make_loader testDataset batchSize false
    let testing := mkMalwareDataset fsys testingBenignDir testingMalwareDir
    let _ := make_idx testing 1 0 (P 4) (P 5) (P 6) (P 7)
    let valDataset : SubsetModel := ⟨testing, idx.2.1⟩
    let valLoader := make_loader valDataset batchSize false
    Except.ok (trainLoader, valLoader, testLoader)

/-! ### Lemmas about Python list subscription -/

lemma pyIndex_natCast {α : Type} (l : List α) (i : ℕ) (h : i < l.length) :
    pyIndex l (i : ℤ) = some (l.get ⟨i, h⟩) := by
  have hnot : ¬ ((i : ℤ) < 0) := by omega
  simp only [pyIndex, hnot, if_false, Int.toNat_natCast]
  rw [if_pos (by omega)]
  exact List.get?_eq_get h

lemma pyIndex_none {α : Type} (l : List α) (i : ℤ)
    (h : i < -(l.length : ℤ) ∨ (l.length : ℤ) ≤ i) : pyIndex l i = none := by
  by_cases hi : i < 0
  · have hlt : i + (l.length : ℤ) < 0 := by omega
    simp only [pyIndex, hi, if_true]
    rw [if_neg (by omega)]
  · have hge : (l.length : ℤ) ≤ i := by omega
    simp only [pyIndex, hi, if_false]
    rw [if_pos (by omega)]
    exact List.get?_eq_none.mpr (by omega)

lemma pyIndex_neg {α : Type} (l : List α) (i : ℤ) (h1 : i < 0)
    (h2 : -(l.length : ℤ) ≤ i) :
    ∃ h : (i + (l.length : ℤ)).toNat < l.length,
      pyIndex l i = some (l.get ⟨(i + (l.length : ℤ)).toNat, h⟩) := by
  have hjlt : (i + (l.length : ℤ)).toNat < l.length := by omega
  refine ⟨hjlt, ?_⟩
  simp only [pyIndex, h1, if_true]
  rw [if_pos (by omega)]
  exact List.get?_eq_get hjlt

/-- C2: for a `UnionDataset` with `B` benign and `M` malware files,
`len()` equals `B + M`; `get(i)` returns the `i`-th benign sample with
label `0.0` for `0 ≤ i < B`, and the `(i − B)`-th malware sample with
label `1.0` for `B ≤ i < B + M`. -/
theorem getitem_in_range (d : MalwareDataset) (i : ℕ) :
    d.len = d.benign.length + d.malware.length ∧
    (∀ h : i < d.benign.length,
      d.getitem (i : ℤ) = some (d.benign.get ⟨i, h⟩, 0)) ∧
    (d.benign.length ≤ i → ∀ h2 : i - d.benign.length < d.malware.length,
      d.getitem (i : ℤ) = some (d.malware.get ⟨i - d.benign.length, h2⟩, 1)) := by
  refine ⟨rfl, ?_, ?_⟩
  · intro h
    unfold MalwareDataset.getitem
    rw [pyIndex_natCast d.benign i h]
  · intro h1 h2
    unfold MalwareDataset.getitem
    rw [pyIndex_none d.benign (i : ℤ) (Or.inr (by omega))]
    have hcast : (i : ℤ) - (d.benign.length : ℤ) = ((i - d.benign.length : ℕ) : ℤ) := by
      omega
    rw [hcast, pyIndex_natCast d.malware (i - d.benign.length) h2]

/-- C2 witness: a dataset with one benign sample `[3]` and one malware
sample `[4]`; index 0 yields the benign sample with label 0.0, index 1 the
malware sample with label 1.0, and the length is 2. -/
theorem getitem_in_range_witness :
    (MalwareDataset.mk [[3]] [[4]]).len = 2 ∧
    (MalwareDataset.mk [[3]] [[4]]).getitem 0 = some ([3], 0) ∧
    (MalwareDataset.mk [[3]] [[4]]).getitem 1 = some ([4], 1) :=
  ⟨(getitem_in_range (MalwareDataset.mk [[3]] [[4]]) 0).1,
   (getitem_in_range (MalwareDataset.mk [[3]] [[4]]) 0).2.1 (by decide),
   (getitem_in_range (MalwareDataset.mk [[3]] [[4]]) 1).2.2 (by decide) (by decide)⟩

/-- C3 counterexample: for the dataset with one benign sample `[7]` and no
malware samples, the out-of-range index `-1` does not raise: it returns the
benign sample with label 0.0 (Python negative indexing on the benign list),
contradicting the claim that every index outside `[0, len())` fails. -/
theorem getitem_negative_counterexample :
    (MalwareDataset.mk [[7]] []).getitem (-1) = some ([7], 0) ∧
    ¬ ((0 : ℤ) ≤ -1) := by
  constructor
  · rfl
  · decide

/-- C3 amended: `get(index)` fails with `IndexError` for every
`index ≥ len()`; a negative index is resolved Python-style, first against
the benign list (`−B ≤ index < 0` returns the `(B + index)`-th benign
sample with label 0.0), then against the malware list
(`B − M ≤ index < −B` returns the `(index − B + M)`-th malware sample with
label 1.0); only the remaining negative indices fail. -/
theorem getitem_out_of_range (d : MalwareDataset) (i : ℤ) :
    ((d.len : ℤ) ≤ i → d.getitem i = none) ∧
    (i < 0 → -(d.benign.length : ℤ) ≤ i →
      ∃ hb : (i + (d.benign.length : ℤ)).toNat < d.benign.length,
        d.getitem i =
          some (d.benign.get ⟨(i + (d.benign.length : ℤ)).toNat, hb⟩, 0)) ∧
    (i < -(d.benign.length : ℤ) → (d.benign.length : ℤ) - d.malware.length ≤ i →
      ∃ hm : (i - d.benign.length + (d.malware.length : ℤ)).toNat < d.malware.length,
        d.getitem i =
          some (d.malware.get
            ⟨(i - d.benign.length + (d.malware.length : ℤ)).toNat, hm⟩, 1)) ∧
    (i < (d.benign.length : ℤ) - d.malware.length → i < -(d.benign.length : ℤ) →
      d.getitem i = none) := by
  have hlen : (d.len : ℤ) = (d.benign.length : ℤ) + (d.malware.length : ℤ) := by
    simp [MalwareDataset.len]
  refine ⟨?_, ?_, ?_, ?_⟩
  · intro h
    unfold MalwareDataset.getitem
    rw [pyIndex_none d.benign i (Or.inr (by omega))]
    rw [pyIndex_none d.malware (i - d.benign.length) (Or.inr (by omega))]
  · intro hneg h2
    obtain ⟨hb, hx⟩ := pyIndex_neg d.benign i hneg h2
    exact ⟨hb, by unfold MalwareDataset.getitem; rw [hx]⟩
  · intro h1 h2
    obtain ⟨hm, hx⟩ := pyIndex_neg d.malware (i - d.benign.length)
      (by omega) (by omega)
    refine ⟨hm, ?_⟩
    unfold MalwareDataset.getitem
    rw [pyIndex_none d.benign i (Or.inl h1), hx]
  · intro h1 h2
    unfold MalwareDataset.getitem
    rw [pyIndex_none d.benign i (Or.inl h2)]
    rw [pyIndex_none d.malware (i - d.benign.length) (Or.inl (by omega))]

/-- C3 amended witness: on the dataset with benign samples `[[1]]` and
malware samples `[[2],[3],[4]]` (B = 1, M = 3): index 4 fails, index −1
returns the 0-th benign sample `[1]` with label 0.0, index −2 returns the
0-th malware sample `[2]` with label 1.0, and index −5 fails. -/
theorem getitem_out_of_range_witness :
    (MalwareDataset.mk [[1]] [[2],[3],[4]]).getitem 4 = none ∧
    (MalwareDataset.mk [[1]] [[2],[3],[4]]).getitem (-1) = some ([1], 0) ∧
    (MalwareDataset.mk [[1]] [[2],[3],[4]]).getitem (-2) = some ([2], 1) ∧
    (MalwareDataset.mk [[1]] [[2],[3],[4]]).getitem (-5) = none := by
  obtain ⟨hb, heqb⟩ :=
    (getitem_out_of_range (MalwareDataset.mk [[1]] [[2],[3],[4]]) (-1)).2.1
      (by decide) (by decide)
  obtain ⟨hm, heqm⟩ :=
    (getitem_out_of_range (MalwareDataset.mk [[1]] [[2],[3],[4]]) (-2)).2.2.1
      (by decide) (by decide)
  refine ⟨(getitem_out_of_range (MalwareDataset.mk [[1]] [[2],[3],[4]]) 4).1
      (by decide), ?_, ?_,
    (getitem_out_of_range (MalwareDataset.mk [[1]] [[2],[3],[4]]) (-5)).2.2.2
     (by decide) (by decide)⟩
  · rw [heqb]
    rfl
  · rw [heqm]
    rfl

/-! ### Collator -/

lemma pad_sequence_of_ne_nil (seqs : List Sample) (h : seqs ≠ []) (ml pv : ℕ) :
    pad_sequence seqs (some ml) pv = some (seqs.map (padRow ml pv)) := by
  cases seqs with
  | nil => exact absurd rfl h
  | cons s0 rest => rfl

lemma collate_fn_of_ne_nil (batch : List (Sample × ℚ)) (h : batch ≠ []) :
    collate_fn batch =
      some ((batch.map Prod.fst).map (padRow 4096 256), batch.map Prod.snd) := by
  unfold collate_fn
  rw [pad_sequence_of_ne_nil (batch.map Prod.fst) (by simpa using h) 4096 256]

lemma padRow_short (ml pv : ℕ) (s : Sample) (h : s.length < ml) :
    padRow ml pv s = s ++ List.replicate (ml - s.length) pv := by
  unfold padRow
  rw [if_pos h]

lemma padRow_long (ml pv : ℕ) (s : Sample) (h : ml ≤ s.length) :
    padRow ml pv s = s.take ml := by
  unfold padRow
  rw [if_neg (by omega)]

/-- C10: on the empty batch the Collator fails (`pad_sequence` accesses the
first element of an empty sequence list) rather than returning an empty
batch; on every non-empty batch it succeeds. -/
theorem collate_empty_batch :
    (∀ ml pv, pad_sequence [] ml pv = none) ∧
    (∀ batch : List (Sample × ℚ), collate_fn batch = none ↔ batch = []) := by
  refine ⟨fun ml pv => rfl, fun batch => ?_⟩
  cases batch with
  | nil => simp [collate_fn, pad_sequence]
  | cons b bs =>
    rw [collate_fn_of_ne_nil (b :: bs) (by simp)]
    simp

/-- C7: a sample of length `L < 4096` in any batch yields an output row of
width exactly 4096 whose first `L` values equal the original sample and
whose remaining `4096 − L` values all equal the pad value 256 (labels kept
in batch order). -/
theorem collate_pads_short_sample (batch : List (Sample × ℚ)) (j : ℕ)
    (hj : j < batch.length) (hlt : (batch.get ⟨j, hj⟩).1.length < 4096) :
    ∃ xs, collate_fn batch = some (xs, batch.map Prod.snd) ∧
      ∃ hx : j < xs.length,
        (xs.get ⟨j, hx⟩).length = 4096 ∧
        (xs.get ⟨j, hx⟩).take (batch.get ⟨j, hj⟩).1.length = (batch.get ⟨j, hj⟩).1 ∧
        (xs.get ⟨j, hx⟩).drop (batch.get ⟨j, hj⟩).1.length =
          List.replicate (4096 - (batch.get ⟨j, hj⟩).1.length) 256 := by
  have hne : batch ≠ [] := by
    intro h
    rw [h] at hj
    exact absurd hj (by simp)
  have hget : ((batch.map Prod.fst).map (padRow 4096 256)).get
      ⟨j, by simpa using hj⟩ = padRow 4096 256 (batch.get ⟨j, hj⟩).1 := by
    simp [List.get_eq_getElem]
  refine ⟨(batch.map Prod.fst).map (padRow 4096 256),
    collate_fn_of_ne_nil batch hne, by simpa using hj, ?_, ?_, ?_⟩
  · rw [hget, padRow_short 4096 256 _ hlt]
    simp only [List.length_append, List.length_replicate]
    omega
  · rw [hget, padRow_short 4096 256 _ hlt]
    exact List.take_left _ _
  · rw [hget, padRow_short 4096 256 _ hlt]
    exact List.drop_left _ _

/-- C7 witness: the batch `[([5,5,5], 1.0)]`: the single output row has
width 4096, starts with `[5,5,5]`, and its remaining 4093 entries are all
256. -/
theorem collate_pads_short_sample_witness :
    ∃ xs, collate_fn [([5,5,5], (1 : ℚ))] = some (xs, [1]) ∧
      ∃ hx : 0 < xs.length,
        (xs.get ⟨0, hx⟩).length = 4096 ∧
        (xs.get ⟨0, hx⟩).take 3 = [5,5,5] ∧
        (xs.get ⟨0, hx⟩).drop 3 = List.replicate 4093 256 :=
  collate_pads_short_sample [([5,5,5], (1 : ℚ))] 0 (by decide) (by decide)

/-- C8: a sample of length `≥ 4096` in any batch yields an output row equal
to exactly its first 4096 elements; if the sample is byte-valued (all
values ≤ 255), the pad symbol 256 does not appear in the row. -/
theorem collate_truncates_long_sample (batch : List (Sample × ℚ)) (j : ℕ)
    (hj : j < batch.length) (hge : 4096 ≤ (batch.get ⟨j, hj⟩).1.length)
    (hbyte : ∀ x ∈ (batch.get ⟨j, hj⟩).1, x ≤ 255) :
    ∃ xs, collate_fn batch = some (xs, batch.map Prod.snd) ∧
      ∃ hx : j < xs.length,
        xs.get ⟨j, hx⟩ = (batch.get ⟨j, hj⟩).1.take 4096 ∧
        256 ∉ xs.get ⟨j, hx⟩ := by
  have hne : batch ≠ [] := by
    intro h
    rw [h] at hj
    exact absurd hj (by simp)
  have hget : ((batch.map Prod.fst).map (padRow 4096 256)).get
      ⟨j, by simpa using hj⟩ = padRow 4096 256 (batch.get ⟨j, hj⟩).1 := by
    simp [List.get_eq_getElem]
  refine ⟨(batch.map Prod.fst).map (padRow 4096 256),
    collate_fn_of_ne_nil batch hne, by simpa using hj, ?_, ?_⟩
  · rw [hget, padRow_long 4096 256 _ hge]
  · rw [hget, padRow_long 4096 256 _ hge]
    intro hmem
    have hx : (256 : ℕ) ∈ (batch.get ⟨j, hj⟩).1 := List.take_subset 4096 _ hmem
    exact absurd (hbyte 256 hx) (by omega)

/-- C8 witness: the batch `[(replicate 5000 7, 0.0)]`: the single output
row equals the first 4096 elements of the sample and contains no 256. -/
theorem collate_truncates_long_sample_witness :
    ∃ xs, collate_fn [(List.replicate 5000 7, (0 : ℚ))] = some (xs, [0]) ∧
      ∃ hx : 0 < xs.length,
        xs.get ⟨0, hx⟩ = (List.replicate 5000 7).take 4096 ∧
        256 ∉ xs.get ⟨0, hx⟩ :=
  collate_truncates_long_sample [(List.replicate 5000 7, (0 : ℚ))] 0
    (by norm_num)
    (by
      show 4096 ≤ (List.replicate 5000 7).length
      rw [List.length_replicate]
      norm_num)
    (by
      intro x hx
      have hx2 : x ∈ List.replicate 5000 7 := hx
      rw [List.eq_of_mem_replicate hx2]
      norm_num)

/-! ### LoaderFactory -/

/-- C9: `make_loaders` rejects `val_size + test_size ≥ 1` with a
`ValueError` (the spec's `ConfigError`) before constructing the dataset or
splitting (the error is the same for every filesystem and every random
draw), and raises no such error when `val_size + test_size < 1`. -/
theorem make_loaders_config_check (fsys : String → List Sample)
    (benignDir malwareDir : String) (batchSize : ℕ) (valSize testSize : ℚ)
    (P : ℕ → List ℕ → List ℕ) :
    (1 ≤ valSize + testSize →
      make_loaders fsys benignDir malwareDir batchSize valSize testSize P =
        Except.error "ValueError: val_size + test_size >= 1. Please adjust the proportions and try again.") ∧
    (valSize + testSize < 1 →
      ∃ out, make_loaders fsys benignDir malwareDir batchSize valSize testSize P =
        Except.ok out) := by
  constructor
  · intro h
    unfold make_loaders
    rw [if_pos h]
  · intro h
    unfold make_loaders
    rw [if_neg (not_le.mpr h)]
    exact ⟨_, rfl⟩

/-- C9 witness: fractions (0.5, 0.6) produce the `ValueError`; fractions
(0.1, 0.1) produce loaders. -/
theorem make_loaders_config_check_witness :
    (make_loaders (fun _ => []) "b" "m" 1 (1/2) (3/5) (fun _ => id) =
      Except.error "ValueError: val_size + test_size >= 1. Please adjust the proportions and try again.") ∧
    (∃ out, make_loaders (fun _ => []) "b" "m" 1 (1/10) (1/10) (fun _ => id) =
      Except.ok out) :=
  ⟨(make_loaders_config_check (fun _ => []) "b" "m" 1 (1/2) (3/5)
      (fun _ => id)).1 (by norm_num),
   (make_loaders_config_check (fun _ => []) "b" "m" 1 (1/10) (1/10)
      (fun _ => id)).2 (by norm_num)⟩

/-- A concrete filesystem on which the primary directories and the
hard-coded `/home/kali/...` directories hold different data. -/
def fsysExample : String → List Sample := fun dir =>
  if dir = "benign" then [[1]] else if dir = "malware" then [[2]] else []

/-- C1 (bug witness): with valid fractions, `make_loaders` returns train
and test loaders over the primary dataset, but the validation loader's
underlying dataset is the secondary `MalwareDataset` loaded from the
hard-coded `/home/kali/...` paths — not the primary dataset — while
reusing the primary dataset's `val_idx`. -/
theorem val_loader_uses_secondary_dataset :
    make_loaders fsysExample "benign" "malware" 1 (1/4) (1/4) (fun _ => id) =
      Except.ok
        (⟨⟨mkMalwareDataset fsysExample "benign" "malware", []⟩, 1, true⟩,
         ⟨⟨mkMalwareDataset fsysExample testingBenignDir testingMalwareDir, []⟩,
           1, false⟩,
         ⟨⟨mkMalwareDataset fsysExample "benign" "malware", [0, 1]⟩, 1, false⟩) ∧
    mkMalwareDataset fsysExample testingBenignDir testingMalwareDir ≠
      mkMalwareDataset fsysExample "benign" "malware" := by
  constructor
  · with_unfolding_all rfl
  · decide

/-- C6: the split is a deterministic function of the index sequence, the
fractions, the shuffle flag and the random draws: with the random-split
primitive's draws from the (seeded) random state made explicit as the
oracles `p1 p2` (resp. `q1 … q4`), two runs of `train_val_test_split`
(resp. `make_idx`) over the same inputs produce identical
`(train_idx, val_idx, test_idx)`; in particular the val and test subsets
hold identical orders. -/
theorem split_deterministic (idx : List ℕ) (valSize testSize : ℚ)
    (shuffle : Bool) (p1 p2 : List ℕ → List ℕ) (d : MalwareDataset)
    (q1 q2 q3 q4 : List ℕ → List ℕ)
    (r1 r2 s1 s2 : List ℕ × List ℕ × List ℕ)
    (h1 : r1 = train_val_test_split idx valSize testSize shuffle p1 p2)
    (h2 : r2 = train_val_test_split idx valSize testSize shuffle p1 p2)
    (h3 : s1 = make_idx d valSize testSize q1 q2 q3 q4)
    (h4 : s2 = make_idx d valSize testSize q1 q2 q3 q4) :
    r1 = r2 ∧ r1.2.1 = r2.2.1 ∧ r1.2.2 = r2.2.2 ∧ s1 = s2 := by
  subst h1 h2 h3 h4
  exact ⟨rfl, rfl, rfl, rfl⟩

/-- C6 witness: two runs over `[0,1,2,3]` with fractions (0.25, 0.25),
shuffling with the identical draw, coincide. -/
theorem split_deterministic_witness :
    train_val_test_split [0,1,2,3] (1/4) (1/4) true id id =
      train_val_test_split [0,1,2,3] (1/4) (1/4) true id id ∧
    make_idx (MalwareDataset.mk [[1]] [[2]]) (1/4) (1/4) id id id id =
      make_idx (MalwareDataset.mk [[1]] [[2]]) (1/4) (1/4) id id id id :=
  ⟨(split_deterministic [0,1,2,3] (1/4) (1/4) true id id
      (MalwareDataset.mk [[1]] [[2]]) id id id id _ _ _ _
      rfl rfl rfl rfl).1,
   (split_deterministic [0,1,2,3] (1/4) (1/4) true id id
      (MalwareDataset.mk [[1]] [[2]]) id id id id _ _ _ _
      rfl rfl rfl rfl).2.2.2⟩

/-! ### Splitter invariants -/

lemma count_drop_add_take (l : List ℕ) (k a : ℕ) :
    (l.drop k).count a + (l.take k).count a = l.count a := by
  rw [Nat.add_comm, ← List.count_append, List.take_append_drop]

lemma train_test_split_count (idx : List ℕ) (t : ℚ) (p : List ℕ → List ℕ)
    (hp : List.Perm (p idx) idx) (a : ℕ) :
    (train_test_split idx t true p).1.count a +
      (train_test_split idx t true p).2.count a = idx.count a := by
  show ((p idx).drop (Nat.ceil ((idx.length : ℚ) * t))).count a +
      ((p idx).take (Nat.ceil ((idx.length : ℚ) * t))).count a = idx.count a
  rw [count_drop_add_take]
  exact hp.count_eq a

lemma train_val_test_split_count (idx : List ℕ) (v t : ℚ)
    (p1 p2 : List ℕ → List ℕ) (h1 : List.Perm (p1 idx) idx)
    (h2 : ∀ l, List.Perm (p2 l) l) (a : ℕ) :
    (train_val_test_split idx v t true p1 p2).1.count a +
      (train_val_test_split idx v t true p1 p2).2.1.count a +
      (train_val_test_split idx v t true p1 p2).2.2.count a = idx.count a := by
  show (train_test_split (train_test_split idx t true p1).1 v true p2).1.count a +
      (train_test_split (train_test_split idx t true p1).1 v true p2).2.count a +
      (train_test_split idx t true p1).2.count a = idx.count a
  rw [train_test_split_count (train_test_split idx t true p1).1 v p2 (h2 _) a]
  exact train_test_split_count idx t p1 h1 a

lemma range_split (B M : ℕ) : List.range B ++ List.range' B M = List.range (B + M) := by
  have h := List.range'_append 0 B M 1
  rw [one_mul, Nat.zero_add] at h
  rw [List.range_eq_range' B, h, Nat.add_comm B M, List.range_eq_range' (M + B)]

lemma make_idx_perm (d : MalwareDataset) (v t : ℚ)
    (p1 p2 p3 p4 : List ℕ → List ℕ)
    (h1 : ∀ l, List.Perm (p1 l) l) (h2 : ∀ l, List.Perm (p2 l) l)
    (h3 : ∀ l, List.Perm (p3 l) l) (h4 : ∀ l, List.Perm (p4 l) l) :
    List.Perm
      ((make_idx d v t p1 p2 p3 p4).1 ++ (make_idx d v t p1 p2 p3 p4).2.1 ++
        (make_idx d v t p1 p2 p3 p4).2.2)
      (List.range d.len) := by
  rw [List.perm_iff_count]
  intro a
  have hB := train_val_test_split_count (List.range d.benign.length) v t p1 p2
    (h1 _) h2 a
  have hM := train_val_test_split_count (List.range' d.benign.length d.malware.length)
    v t p3 p4 (h3 _) h4 a
  have hR : (List.range d.len).count a =
      (List.range d.benign.length).count a +
        (List.range' d.benign.length d.malware.length).count a := by
    rw [← List.count_append, range_split]
    rfl
  show (((train_val_test_split (List.range d.benign.length) v t true p1 p2).1 ++
        (train_val_test_split (List.range' d.benign.length d.malware.length) v t true p3 p4).1) ++
      ((train_val_test_split (List.range d.benign.length) v t true p1 p2).2.1 ++
        (train_val_test_split (List.range' d.benign.length d.malware.length) v t true p3 p4).2.1) ++
      ((train_val_test_split (List.range d.benign.length) v t true p1 p2).2.2 ++
        (train_val_test_split (List.range' d.benign.length d.malware.length) v t true p3 p4).2.2)).count a =
    (List.range d.len).count a
  simp only [List.count_append]
  omega

/-- C4: for every dataset and fractions `v`, `t` with `v + t < 1`, the
three index subsets produced by `make_idx` (with any genuine permutation
draws) have lengths summing to the number of indices, are pairwise
disjoint, and their union as a set is the full index range
`[0, B + M)`. -/
theorem make_idx_partition (d : MalwareDataset) (v t : ℚ)
    (p1 p2 p3 p4 : List ℕ → List ℕ)
    (h1 : ∀ l, List.Perm (p1 l) l) (h2 : ∀ l, List.Perm (p2 l) l)
    (h3 : ∀ l, List.Perm (p3 l) l) (h4 : ∀ l, List.Perm (p4 l) l) :
    0 ≤ v → 0 ≤ t → v + t < 1 →
    ((make_idx d v t p1 p2 p3 p4).1.length +
        (make_idx d v t p1 p2 p3 p4).2.1.length +
        (make_idx d v t p1 p2 p3 p4).2.2.length = d.len ∧
      ((make_idx d v t p1 p2 p3 p4).1.Disjoint (make_idx d v t p1 p2 p3 p4).2.1 ∧
        (make_idx d v t p1 p2 p3 p4).1.Disjoint (make_idx d v t p1 p2 p3 p4).2.2 ∧
        (make_idx d v t p1 p2 p3 p4).2.1.Disjoint (make_idx d v t p1 p2 p3 p4).2.2) ∧
      ∀ x, (x ∈ (make_idx d v t p1 p2 p3 p4).1 ∨
          x ∈ (make_idx d v t p1 p2 p3 p4).2.1 ∨
          x ∈ (make_idx d v t p1 p2 p3 p4).2.2) ↔ x < d.len) := by
  intro _ _ _
  have P := make_idx_perm d v t p1 p2 p3 p4 h1 h2 h3 h4
  have hnd : ((make_idx d v t p1 p2 p3 p4).1 ++ (make_idx d v t p1 p2 p3 p4).2.1 ++
      (make_idx d v t p1 p2 p3 p4).2.2).Nodup :=
    P.nodup_iff.mpr (List.nodup_range d.len)
  have hTV := (List.nodup_append.mp hnd).1
  have hDisjTe := (List.nodup_append.mp hnd).2.2
  refine ⟨?_, ⟨?_, ?_, ?_⟩, ?_⟩
  · have := P.length_eq
    simp only [List.length_append, List.length_range] at this
    omega
  · exact (List.nodup_append.mp hTV).2.2
  · exact fun x hx => (List.disjoint_append_left.mp hDisjTe).1 hx
  · exact fun x hx => (List.disjoint_append_left.mp hDisjTe).2 hx
  · intro x
    have := P.mem_iff (a := x)
    simp only [List.mem_append, List.mem_range] at this
    tauto

/-- C4 witness: the dataset with 2 benign and 2 malware samples, fractions
(0.25, 0.25), identity draws: lengths sum to 4, the subsets are pairwise
disjoint, and their union is `[0, 4)`. -/
theorem make_idx_partition_witness :
    (make_idx (MalwareDataset.mk [[1],[2]] [[3],[4]]) (1/4) (1/4) id id id id).1.length +
        (make_idx (MalwareDataset.mk [[1],[2]] [[3],[4]]) (1/4) (1/4) id id id id).2.1.length +
        (make_idx (MalwareDataset.mk [[1],[2]] [[3],[4]]) (1/4) (1/4) id id id id).2.2.length =
        (MalwareDataset.mk [[1],[2]] [[3],[4]]).len ∧
      ((make_idx (MalwareDataset.mk [[1],[2]] [[3],[4]]) (1/4) (1/4) id id id id).1.Disjoint
          (make_idx (MalwareDataset.mk [[1],[2]] [[3],[4]]) (1/4) (1/4) id id id id).2.1 ∧
        (make_idx (MalwareDataset.mk [[1],[2]] [[3],[4]]) (1/4) (1/4) id id id id).1.Disjoint
          (make_idx (MalwareDataset.mk [[1],[2]] [[3],[4]]) (1/4) (1/4) id id id id).2.2 ∧
        (make_idx (MalwareDataset.mk [[1],[2]] [[3],[4]]) (1/4) (1/4) id id id id).2.1.Disjoint
          (make_idx (MalwareDataset.mk [[1],[2]] [[3],[4]]) (1/4) (1/4) id id id id).2.2) ∧
      ∀ x, (x ∈ (make_idx (MalwareDataset.mk [[1],[2]] [[3],[4]]) (1/4) (1/4) id id id id).1 ∨
          x ∈ (make_idx (MalwareDataset.mk [[1],[2]] [[3],[4]]) (1/4) (1/4) id id id id).2.1 ∨
          x ∈ (make_idx (MalwareDataset.mk [[1],[2]] [[3],[4]]) (1/4) (1/4) id id id id).2.2) ↔
        x < (MalwareDataset.mk [[1],[2]] [[3],[4]]).len :=
  make_idx_partition (MalwareDataset.mk [[1],[2]] [[3],[4]]) (1/4) (1/4) id id id id
    (fun l => List.Perm.refl l) (fun l => List.Perm.refl l)
    (fun l => List.Perm.refl l) (fun l => List.Perm.refl l)
    (by norm_num) (by norm_num) (by norm_num)

lemma test_part_subset (idx : List ℕ) (v t : ℚ) (p1 p2 : List ℕ → List ℕ)
    (h1 : ∀ l, List.Perm (p1 l) l) :
    ∀ x ∈ (train_val_test_split idx v t true p1 p2).2.2, x ∈ idx := by
  intro x hx
  have hx2 : x ∈ (p1 idx).take (Nat.ceil ((idx.length : ℚ) * t)) := hx
  exact (h1 idx).mem_iff.mp (List.take_subset _ _ hx2)

lemma test_part_length (idx : List ℕ) (v t : ℚ) (p1 p2 : List ℕ → List ℕ)
    (h1 : ∀ l, List.Perm (p1 l) l)
    (hk : Nat.ceil ((idx.length : ℚ) * t) ≤ idx.length) :
    (train_val_test_split idx v t true p1 p2).2.2.length =
      Nat.ceil ((idx.length : ℚ) * t) := by
  show ((p1 idx).take (Nat.ceil ((idx.length : ℚ) * t))).length = _
  rw [List.length_take, (h1 idx).length_eq]
  exact min_eq_left hk

lemma ceil_mul_le (t : ℚ) (ht1 : t ≤ 1) (n : ℕ) : Nat.ceil ((n : ℚ) * t) ≤ n := by
  rw [Nat.ceil_le]
  calc (n : ℚ) * t ≤ (n : ℚ) * 1 := by
        apply mul_le_mul_of_nonneg_left ht1 (by positivity)
  _ = n := mul_one _

/-- C5: the Splitter is stratified: for any fractions, the test subset
contains exactly `⌈B · t⌉` benign-origin indices (indices `< B`) and
exactly `⌈M · t⌉` malware-origin indices (indices `≥ B`), because the
benign and malware index ranges are split independently with the same
fractions — so the benign-to-malware ratio of `test_idx` matches the full
dataset's ratio within rounding, and is exact for evenly divisible sizes
(e.g. 100 benign + 100 malware at `t = 0.2` give exactly 20 + 20). -/
theorem make_idx_stratified (d : MalwareDataset) (v t : ℚ)
    (p1 p2 p3 p4 : List ℕ → List ℕ)
    (h1 : ∀ l, List.Perm (p1 l) l) (h3 : ∀ l, List.Perm (p3 l) l)
    (ht1 : t ≤ 1) :
    (make_idx d v t p1 p2 p3 p4).2.2.countP
        (fun x => decide (x < d.benign.length)) =
      Nat.ceil ((d.benign.length : ℚ) * t) ∧
    (make_idx d v t p1 p2 p3 p4).2.2.countP
        (fun x => decide (d.benign.length ≤ x)) =
      Nat.ceil ((d.malware.length : ℚ) * t) := by
  have hsplit : (make_idx d v t p1 p2 p3 p4).2.2 =
      (train_val_test_split (List.range d.benign.length) v t true p1 p2).2.2 ++
        (train_val_test_split (List.range' d.benign.length d.malware.length)
          v t true p3 p4).2.2 := rfl
  have hBmem := test_part_subset (List.range d.benign.length) v t p1 p2 h1
  have hMmem := test_part_subset (List.range' d.benign.length d.malware.length)
    v t p3 p4 h3
  have hBlen : (train_val_test_split (List.range d.benign.length) v t true p1 p2).2.2.length =
      Nat.ceil ((d.benign.length : ℚ) * t) := by
    rw [test_part_length (List.range d.benign.length) v t p1 p2 h1
      (by rw [List.length_range]; exact ceil_mul_le t ht1 _)]
    rw [List.length_range]
  have hMlen : (train_val_test_split (List.range' d.benign.length d.malware.length)
      v t true p3 p4).2.2.length = Nat.ceil ((d.malware.length : ℚ) * t) := by
    rw [test_part_length (List.range' d.benign.length d.malware.length) v t p3 p4 h3
      (by simp only [List.length_range']; exact ceil_mul_le t ht1 _)]
    simp only [List.length_range']
  constructor
  · rw [hsplit, List.countP_append]
    have e1 : (train_val_test_split (List.range d.benign.length) v t true p1 p2).2.2.countP
        (fun x => decide (x < d.benign.length)) =
        (train_val_test_split (List.range d.benign.length) v t true p1 p2).2.2.length := by
      rw [List.countP_eq_length]
      intro a ha
      exact decide_eq_true (List.mem_range.mp (hBmem a ha))
    have e2 : (train_val_test_split (List.range' d.benign.length d.malware.length)
        v t true p3 p4).2.2.countP (fun x => decide (x < d.benign.length)) = 0 := by
      rw [List.countP_eq_zero]
      intro a ha
      have hge : d.benign.length ≤ a := (List.mem_range'_1.mp (hMmem a ha)).1
      simp only [decide_eq_true_eq]
      omega
    rw [e1, e2, hBlen, Nat.add_zero]
  · rw [hsplit, List.countP_append]
    have e1 : (train_val_test_split (List.range d.benign.length) v t true p1 p2).2.2.countP
        (fun x => decide (d.benign.length ≤ x)) = 0 := by
      rw [List.countP_eq_zero]
      intro a ha
      have hlt : a < d.benign.length := List.mem_range.mp (hBmem a ha)
      simp only [decide_eq_true_eq]
      omega
    have e2 : (train_val_test_split (List.range' d.benign.length d.malware.length)
        v t true p3 p4).2.2.countP (fun x => decide (d.benign.length ≤ x)) =
        (train_val_test_split (List.range' d.benign.length d.malware.length)
          v t true p3 p4).2.2.length := by
      rw [List.countP_eq_length]
      intro a ha
      exact decide_eq_true (List.mem_range'_1.mp (hMmem a ha)).1
    rw [e1, e2, hMlen, Nat.zero_add]

/-- C5 witness: 100 benign and 100 malware samples, `test_fraction = 0.2`:
the test subset holds exactly 20 benign-origin and exactly 20
malware-origin indices. -/
theorem make_idx_stratified_witness :
    (make_idx (MalwareDataset.mk (List.replicate 100 []) (List.replicate 100 []))
        (1/10) (1/5) id id id id).2.2.countP
      (fun x => decide (x < (List.replicate 100 ([] : Sample)).length)) = 20 ∧
    (make_idx (MalwareDataset.mk (List.replicate 100 []) (List.replicate 100 []))
        (1/10) (1/5) id id id id).2.2.countP
      (fun x => decide ((List.replicate 100 ([] : Sample)).length ≤ x)) = 20 := by
  have h := make_idx_stratified
    (MalwareDataset.mk (List.replicate 100 []) (List.replicate 100 []))
    (1/10) (1/5) id id id id
    (fun l => List.Perm.refl l) (fun l => List.Perm.refl l) (by norm_num)
  have h20 : Nat.ceil (((List.replicate 100 ([] : Sample)).length : ℚ) * (1/5)) = 20 := by
    rw [List.length_replicate]
    norm_num
  exact ⟨h.1.trans h20, h.2.trans h20⟩
